import Mathlib

/-!
Verification of the voice-bookkeeping service (`akawo.service.ts` and its
iterations).  The TypeScript source is shallowly embedded: each Lean
definition below mirrors one function of the source, with external
collaborators (Gemini generative backend, Spitch TTS, MongoDB document
store) represented as explicit oracle parameters or as an explicit list
state.  JavaScript numbers on the integer paths are modelled as `Int`;
JavaScript `undefined` results of a failed object lookup are modelled as
`Option.none`.
-/

/-! ## Character and string utilities

`wsChar` models the whitespace class of the JS regexes `\s` restricted to
the characters that occur in this repository's data.  `digitChar` is the
decimal-digit test used by `parseInt`.
-/

def wsChar (c : Char) : Bool :=
  c = ' ' || c = '\t' || c = '\n' || c = '\r'

def digitChar (c : Char) : Bool :=
  '0' ≤ c && c ≤ '9'

/-- Association-list lookup with propositional key equality (used for the
number lexicon, the case table and the NFD table). -/
def assocLookup {α β : Type} [DecidableEq α] (k : α) : List (α × β) → Option β
  | [] => none
  | (a, b) :: rest => if k = a then some b else assocLookup k rest

/-- ASCII case table: model of `String.prototype.toLowerCase` /
`toUpperCase` restricted to the ASCII letters (the only case mappings the
source's data exercises). -/
def upperLowerPairs : List (Char × Char) :=
  [('A','a'), ('B','b'), ('C','c'), ('D','d'), ('E','e'), ('F','f'),
   ('G','g'), ('H','h'), ('I','i'), ('J','j'), ('K','k'), ('L','l'),
   ('M','m'), ('N','n'), ('O','o'), ('P','p'), ('Q','q'), ('R','r'),
   ('S','s'), ('T','t'), ('U','u'), ('V','v'), ('W','w'), ('X','x'),
   ('Y','y'), ('Z','z')]

def jsToLower (c : Char) : Char :=
  (assocLookup c upperLowerPairs).getD c

def jsToUpper (c : Char) : Char :=
  (assocLookup c (upperLowerPairs.map (fun p => (p.2, p.1)))).getD c

def jsToLowerStr (s : String) : String :=
  String.mk (s.data.map jsToLower)

/-- `text.replace(/,/g, '')`. -/
def stripCommas (s : String) : String :=
  String.mk (s.data.filter (fun c => c ≠ ','))

/-- `String.prototype.trim`. -/
def trimStr (s : String) : String :=
  String.mk (((s.data.dropWhile wsChar).reverse.dropWhile wsChar).reverse)

/-- `capitalize` from the service: `s.charAt(0).toUpperCase() + s.slice(1)`. -/
def capitalize (s : String) : String :=
  match s.data with
  | [] => ""
  | c :: rest => String.mk (jsToUpper c :: rest)

/-- Splitter for `split(/\s+/)`: splits at each whitespace character.  A run
of k whitespace characters yields k-1 empty tokens that `split(/\s+/)`
would merge away; empty tokens are inert in every consumer below (no digit
to parse, no lexicon entry, not a conjunction), so the two behaviours
agree. -/
def splitWsAux : List Char → List Char → List (List Char)
  | [], acc => [acc.reverse]
  | c :: rest, acc =>
    if wsChar c then acc.reverse :: splitWsAux rest []
    else splitWsAux rest (c :: acc)

def splitWs (s : String) : List String :=
  (splitWsAux s.data []).map String.mk

def startsWithChars : List Char → List Char → Bool
  | _, [] => true
  | [], _ :: _ => false
  | c :: cs, n :: ns => c = n && startsWithChars cs ns

def subChars (needle : List Char) : List Char → Bool
  | [] => startsWithChars [] needle
  | c :: rest => startsWithChars (c :: rest) needle || subChars needle rest

/-- `hay.includes(needle)` (substring containment). -/
def includesStr (hay needle : String) : Bool :=
  subChars needle.data hay.data

/-- Value of a non-empty decimal digit list, most significant first. -/
def digitsToNat (ds : List Char) : Nat :=
  ds.foldl (fun n c => 10 * n + (c.toNat - 48)) 0

/-- Leading decimal run of a character list, as `parseInt` reads it after
the sign: `none` when no digit starts the list (JS `NaN`). -/
def digitsPre (cs : List Char) : Option Nat :=
  let ds := cs.takeWhile digitChar
  if ds.isEmpty then none else some (digitsToNat ds)

/-- Model of JS `parseInt(s)` (radix 10): skip leading whitespace, optional
sign, then the longest leading digit run; `none` models `NaN`.  (The hex
`0x` form of `parseInt` is not modelled; no caller feeds it.) -/
def parseIntSigned : List Char → Option Int
  | [] => none
  | c :: rest =>
    if c = '-' then (digitsPre rest).map (fun n => -(Int.ofNat n))
    else if c = '+' then (digitsPre rest).map Int.ofNat
    else (digitsPre (c :: rest)).map Int.ofNat

def parseIntJS (s : String) : Option Int :=
  parseIntSigned (s.data.dropWhile wsChar)

/-! ## Unicode NFD and `normalizeTextForParsing`

`normalizeTextForParsing` in the source is
`text.normalize('NFD').replace(/[̀-ͯ]/g, '').toLowerCase()`.
The NFD table below covers the precomposed code points occurring in this
repository's string data; every other code point decomposes to itself. -/

def nfdPairs : List (Char × List Char) :=
  [('à', ['a', '̀']), ('á', ['a', '́']),
   ('è', ['e', '̀']), ('é', ['e', '́']),
   ('ì', ['i', '̀']), ('í', ['i', '́']),
   ('ò', ['o', '̀']), ('ó', ['o', '́']),
   ('ù', ['u', '̀']), ('ú', ['u', '́']),
   ('ẹ', ['e', '̣']), ('Ẹ', ['E', '̣']),
   ('ọ', ['o', '̣']), ('Ọ', ['O', '̣']),
   ('ị', ['i', '̣']), ('Ị', ['I', '̣']),
   ('ụ', ['u', '̣']), ('Ụ', ['U', '̣']),
   ('ń', ['n', '́']), ('ǹ', ['n', '̀']),
   ('ḿ', ['m', '́'])]

def nfdChar (c : Char) : List Char :=
  (assocLookup c nfdPairs).getD [c]

/-- The combining-mark range `[̀-ͯ]` stripped by the source. -/
def combiningMark (c : Char) : Bool :=
  0x300 ≤ c.toNat && c.toNat ≤ 0x36F

def normalizeTextForParsing (s : String) : String :=
  String.mk ((((s.data.map nfdChar).flatten).filter
    (fun c => !combiningMark c)).map jsToLower)

/-! ## Data model -/

inductive TxType where
  | income
  | debt
deriving DecidableEq

/-- A transaction candidate produced by an extractor.  The `owner` field is
not part of the TypeScript `ParsedTransaction` type, but the LLM response
is cast unchecked (`parsedJson as ParsedTransaction[]`), so a decoded
object may carry an extra `owner` key; the field records it. -/
structure ExtractedTx where
  customer : String
  details : String
  amount : Int
  type : TxType
  owner : Option String
deriving DecidableEq

/-- The four-language union type `'ig' | 'yo' | 'ha' | 'en'` used by the
handler signatures. -/
inductive Lang where
  | ig
  | yo
  | ha
  | en
deriving DecidableEq

def Lang.code : Lang → String
  | .ig => "ig"
  | .yo => "yo"
  | .ha => "ha"
  | .en => "en"

/-- A persisted document of the `Transaction` Mongo model.  `id` models the
store-assigned `_id`. -/
structure TransactionRecord where
  id : Nat
  customer : String
  details : String
  amount : Int
  type : TxType
  owner : String
deriving DecidableEq

/-! ## Numeral normalizer: `convertTextToNumber` -/

/-- The `numberMap` lexicon of `convertTextToNumber`: word, value,
multiplier flag. -/
def numberMap : List (String × Int × Bool) :=
  [("kan", (1, false)), ("meji", (2, false)), ("meta", (3, false)),
   ("mewa", (10, false)), ("ogun", (20, false)), ("ogbon", (30, false)),
   ("igba", (200, true)), ("egberun", (1000, true)),
   ("thousand", (1000, true))]

/-- One iteration of the word loop of `convertTextToNumber`; the
accumulator pair is `(total, currentVal)`. -/
def convertStep (acc : Int × Int) (word : String) : Int × Int :=
  match parseIntJS word with
  | some n => (acc.1, acc.2 + n)
  | none =>
    match assocLookup word numberMap with
    | some (v, mult) =>
      if mult then (acc.1, if acc.2 = 0 then v else acc.2 * v)
      else (acc.1, acc.2 + v)
    | none =>
      if word = "o" || word = "le" then (acc.1 + acc.2, 0) else acc

/-- `convertTextToNumber(text)`: tokenize
`text.toLowerCase().replace(/,/g, '').split(/\s+/)`, run the word loop,
flush, and fall back to `parseInt(text.replace(/,/g, '')) || 0` when the
accumulated total is not positive. -/
def convertTextToNumber (text : String) : Int :=
  let words := splitWs (stripCommas (jsToLowerStr text))
  let p := words.foldl convertStep (0, 0)
  let total := p.1 + p.2
  if 0 < total then total else (parseIntJS (stripCommas text)).getD 0

/-! ## Intent classifier: `determineIntent` (lexical strategy)

The keyword-set version of `determineIntent` with the four ordered keyword
sets (aggregate-income, aggregate-debt, debtor-list, transaction). -/

inductive Intent where
  | log_transaction
  | query_debtors
  | query_total_income
  | query_total_debt
  | unknown
deriving DecidableEq

def incomeQueryKeywords : List String :=
  ["total income", "pàápàá owó tó wọlé", "ego ole m nwetara",
   "kudin shiga gaba daya"]

def debtQueryKeywords : List String :=
  ["total debt", "pàápàá gbèsè", "ụgwọ ole ka a ji m", "bashin gaba daya"]

def debtorListKeywords : List String :=
  ["tani", "who", "list", "show me", "awon to je", "ndi ji", "su wanene"]

def transactionKeywords : List String :=
  ["gba", "ji", "owes", "san", "sanwo", "kwuru", "paid", "collected",
   "sold", "ta", "ku", "remaining", "biya", "karbi"]

def determineIntent (text : String) : Intent :=
  let lowerText := normalizeTextForParsing text
  if incomeQueryKeywords.any (fun kw => includesStr lowerText kw) then
    Intent.query_total_income
  else if debtQueryKeywords.any (fun kw => includesStr lowerText kw) then
    Intent.query_total_debt
  else if debtorListKeywords.any (fun kw => includesStr lowerText kw) then
    Intent.query_debtors
  else if transactionKeywords.any (fun kw => includesStr lowerText kw) then
    Intent.log_transaction
  else
    Intent.unknown

/-- Spec-side rendering of the lexical strategy: an ordered list of
(keyword set, intent) pairs is scanned and the first set with a matching
member wins, with `unknown` as the final fallback. -/
def firstMatchingIntent (normText : String) :
    List (List String × Intent) → Intent
  | [] => Intent.unknown
  | (kws, intent) :: rest =>
    if kws.any (fun kw => includesStr normText kw) then intent
    else firstMatchingIntent normText rest

/-- The precedence order stated by the spec: aggregate-income, then
aggregate-debt, then debtor-list, then transaction. -/
def intentPrecedence : List (List String × Intent) :=
  [(incomeQueryKeywords, Intent.query_total_income),
   (debtQueryKeywords, Intent.query_total_debt),
   (debtorListKeywords, Intent.query_debtors),
   (transactionKeywords, Intent.log_transaction)]

def classifyLexicalSpec (text : String) : Intent :=
  firstMatchingIntent (normalizeTextForParsing text) intentPrecedence

/-! ## Response composer -/

/-- `Number.prototype.toLocaleString`: decimal digits grouped in threes by
commas, with a leading minus for negative values. -/
def tlGo : Nat → List Char → List Char
  | _, [] => []
  | i, c :: rest =>
    (if 0 < i ∧ i % 3 = 0 then [',', c] else [c]) ++ tlGo (i + 1) rest

def toLocaleString (n : Int) : String :=
  (if n < 0 then "-" else "") ++
    String.mk ((tlGo 0 (toString n.natAbs).data.reverse).reverse)

/-- `generateErrorMessage(lang)`: a `switch` with an English `default`
arm (so every unrecognized code, including `'en'` itself, lands on the
English text). -/
def generateErrorMessage (lang : String) : String :=
  if lang = "yo" then
    "Ẹ jọ̀wọ́, n kò gbọ́ yé yín. Sọ orúkọ oníbàárà, iye owó, àti ìdí rẹ̀, tàbí béèrè ìbéèrè rẹ."
  else if lang = "ig" then
    "Biko, aghọtaghị m. Gwa m onye ahịa, ego ole, na ihe kpatara ya, ma ọ bụ jụọ ajụjụ gị."
  else if lang = "ha" then
    "Yi haƙuri, ban gane ba. Faɗi sunan abokin ciniki, nawa, da kuma dalili, ko yi tambayarka."
  else
    "Sorry, I did not understand. Please state the customer, amount, and reason, or ask your question."

/-- `generateNoDebtorsMessage(lang)`: `messages[lang]` is a bare object
lookup with no default arm, so an unrecognized code yields JS `undefined`,
modelled as `none`. -/
def generateNoDebtorsMessage (lang : String) : Option String :=
  if lang = "yo" then some "Kò sí ẹnikẹ́ni tó jẹ́ ọ́ lówó."
  else if lang = "ig" then some "Onweghị onye ji gị ụgwọ."
  else if lang = "ha" then some "Babu wanda ke bin ka bashi."
  else if lang = "en" then some "You have no outstanding debts."
  else none

/-- `generateConfirmationMessage(data, lang)`: a `switch` with an English
`default` arm; `data` is destructured into customer, amount, type,
details. -/
def generateConfirmationMessage (customer : String) (amount : Int)
    (ty : TxType) (details : String) (lang : String) : String :=
  if lang = "yo" then
    "O dáa. Mo ti kọ sílẹ̀ pé " ++ customer ++ " " ++
      (if ty = TxType.debt then "gbà" else "san") ++ " ₦" ++
      toLocaleString amount ++ " fún " ++ details ++ "."
  else if lang = "ig" then
    "Ọ dị mma. Edeela m na " ++ customer ++ " " ++
      (if ty = TxType.debt then "ji" else "kwụrụ") ++ " ₦" ++
      toLocaleString amount ++ " maka " ++ details ++ "."
  else if lang = "ha" then
    "Na gode. Na rubuta cewa " ++ customer ++ " ya " ++
      (if ty = TxType.debt then "karɓi" else "biya") ++ " ₦" ++
      toLocaleString amount ++ " don " ++ details ++ "."
  else
    "Alright. I\x27ve recorded that " ++ customer ++ " " ++
      (if ty = TxType.debt then "owes" else "paid") ++ " ₦" ++
      toLocaleString amount ++ " for " ++ details ++ "."

/-- The per-language `terms` table of `generateConfirmationMessageV2`
(total over the four-value language union the handler passes in). -/
structure ConfirmTerms where
  debtWord : String
  incomeWord : String
  andWord : String
  forWord : String
  preamble : String

def confirmTerms : Lang → ConfirmTerms
  | .yo => ⟨"gbèsè", "ìsanwó", "àti", "fún", "O dáa. Mo ti kọ sílẹ̀:"⟩
  | .ig => ⟨"ụgwọ", "ịkwụ ụgwọ", "na", "maka", "Ọ dị mma. Edeela m:"⟩
  | .ha => ⟨"bashi", "biya", "da", "don", "Na gode. Na rubuta:"⟩
  | .en => ⟨"a debt of", "a payment of", "and", "for", "Alright. I\x27ve logged:"⟩

/-- `Array.prototype.join(sep)`. -/
def joinSep (sep : String) : List String → String
  | [] => ""
  | [x] => x
  | x :: rest => x ++ sep ++ joinSep sep rest

/-- `generateConfirmationMessageV2(transactions, lang)`: error text for an
empty list, the detailed single message for one record, and the joined
per-type summary for several, attributed to the first record's customer. -/
def generateConfirmationMessageV2 (transactions : List TransactionRecord)
    (lang : Lang) : String :=
  match transactions with
  | [] => generateErrorMessage lang.code
  | [tx] =>
    generateConfirmationMessage tx.customer tx.amount tx.type tx.details
      lang.code
  | tx0 :: rest =>
    let t := confirmTerms lang
    let summary := joinSep (" " ++ t.andWord ++ " ")
      ((tx0 :: rest).map (fun tx =>
        (if tx.type = TxType.debt then t.debtWord else t.incomeWord) ++
          " ₦" ++ toLocaleString tx.amount))
    t.preamble ++ " " ++ summary ++ " " ++ t.forWord ++ " " ++
      tx0.customer ++ "."

/-! ## Transaction extractor -/

/-- Outcome of the generative backend round-trip inside
`parseIntelligentV4`: the call (or `JSON.parse` of its cleaned reply)
throws, or the parsed JSON is not an array, or it is an array of decoded
transaction objects (the `as ParsedTransaction[]` cast is unchecked, so
the objects are whatever the backend produced). -/
inductive LlmOutcome where
  | backendError
  | nonArrayResponse
  | arrayResponse (txs : List ExtractedTx)

/-- `parseIntelligentV4(text)`: any thrown error yields `[]`, a non-array
JSON yields `[]`, and an array is returned verbatim — no per-entry
validation of amount, type or fields is performed. -/
def parseIntelligentV4 (llmReply : LlmOutcome) : List ExtractedTx :=
  match llmReply with
  | .backendError => []
  | .nonArrayResponse => []
  | .arrayResponse txs => txs

/-- `match?.groups?.g.trim() || default`: JS `||` replaces an absent match
or an all-whitespace capture (trimmed to the falsy `""`) by the default. -/
def matchOrDefault (captured : Option String) (dflt : String) : String :=
  match captured with
  | none => dflt
  | some s => if trimStr s = "" then dflt else trimStr s

/-- `parseIntelligent(text)` (the V3 deterministic parser), parameterized
by the results of its four regex scans over the normalized text: the
customer capture, the details capture, and the amount captures of the
income and debt patterns.  Each amount string is trimmed, converted with
`convertTextToNumber`, and pushed only when positive; income matches are
processed before debt matches. -/
def parseIntelligent (customerMatch detailsMatch : Option String)
    (incomeMatches debtMatches : List String) : List ExtractedTx :=
  let customer := matchOrDefault customerMatch "Onibara"
  let details := matchOrDefault detailsMatch "Oja"
  let incomeTxs := incomeMatches.filterMap (fun m =>
    let amount := convertTextToNumber (trimStr m)
    if 0 < amount then
      some ⟨capitalize customer, "Isanwo fun " ++ capitalize details,
        amount, TxType.income, none⟩
    else none)
  let debtTxs := debtMatches.filterMap (fun m =>
    let amount := convertTextToNumber (trimStr m)
    if 0 < amount then
      some ⟨capitalize customer, "Gbese fun " ++ capitalize details,
        amount, TxType.debt, none⟩
    else none)
  incomeTxs ++ debtTxs

/-! ## Orchestrator: transaction logging and deletion

`generateSpeech` wraps the Spitch TTS call in `try/catch` and returns
`null` on any failure, so speech synthesis is modelled as an oracle
`tts : String → Option String` that never throws; `none` is a failed
backend call.  The document store is an explicit list of records. -/

inductive PipelineError where
  | badRequest (message : String) (audioContent : Option String)
  | internalServer (message : String)
deriving DecidableEq

structure LogSuccess where
  resultType : String
  transactions : List TransactionRecord
  audioContent : Option String
  confirmationText : String
deriving DecidableEq

/-- `new this.transactionModel({ ...txData, owner: userId })`: the spread
of the extracted object is followed by `owner: userId`, so any `owner`
key carried by the extracted JSON is overwritten and the persisted owner
is always the authenticated `userId`.  `newId` models the store-assigned
`_id`. -/
def persistRecord (userId : String) (newId : Nat)
    (txData : ExtractedTx) : TransactionRecord :=
  { id := newId, customer := txData.customer, details := txData.details,
    amount := txData.amount, type := txData.type, owner := userId }

/-- The `for (const txData of parsedTransactions)` save loop. -/
def persistAll (userId : String) (newId : Nat) :
    List ExtractedTx → List TransactionRecord
  | [] => []
  | tx :: rest => persistRecord userId newId tx :: persistAll userId (newId + 1) rest

/-- `handleTransactionLogging(text, userId, language)`: extract, reject an
empty extraction with a `BadRequestException` carrying the localized error
text and its synthesized audio, otherwise persist every transaction with
`owner: userId`, compose the confirmation, synthesize it, and return the
`transaction_logged` result.  Returns the response and the resulting
store. -/
def handleTransactionLogging (tts : String → Option String)
    (llmReply : LlmOutcome) (userId : String) (language : Lang)
    (store : List TransactionRecord) (nextId : Nat) :
    Except PipelineError LogSuccess × List TransactionRecord :=
  let parsedTransactions := parseIntelligentV4 llmReply
  if parsedTransactions.length = 0 then
    let errorText := generateErrorMessage language.code
    (Except.error (PipelineError.badRequest errorText (tts errorText)), store)
  else
    let savedTransactions := persistAll userId nextId parsedTransactions
    let confirmationText :=
      generateConfirmationMessageV2 savedTransactions language
    (Except.ok ⟨"transaction_logged", savedTransactions,
      tts confirmationText, confirmationText⟩, store ++ savedTransactions)

structure NotFoundErr where
  message : String
deriving DecidableEq

structure DeleteOk where
  message : String
deriving DecidableEq

/-- `findOneAndDelete(filter)`: removes and returns the first record
matching the filter, leaving the store unchanged when none matches. -/
def findOneAndDelete (store : List TransactionRecord)
    (p : TransactionRecord → Bool) :
    Option TransactionRecord × List TransactionRecord :=
  match store with
  | [] => (none, [])
  | r :: rest =>
    if p r then (some r, rest)
    else
      let q := findOneAndDelete rest p
      (q.1, r :: q.2)

def notFoundMessage (transactionId : Nat) : String :=
  "Transaction with ID \"" ++ toString transactionId ++
    "\" not found or you do not have permission to delete it."

/-- `deleteSingleTransaction(transactionId, userId)`: the delete filter is
the conjunction `{ _id: transactionId, owner: userId }`; a miss (absent id
or another owner's record alike) raises `NotFoundException`. -/
def deleteSingleTransaction (store : List TransactionRecord)
    (transactionId : Nat) (userId : String) :
    Except NotFoundErr DeleteOk × List TransactionRecord :=
  let q := findOneAndDelete store
    (fun r => r.id = transactionId && r.owner = userId)
  match q.1 with
  | none => (Except.error ⟨notFoundMessage transactionId⟩, q.2)
  | some _ => (Except.ok ⟨"Transaction deleted successfully."⟩, q.2)

/-! ## Supporting lemmas -/

theorem assocLookup_mem {α β : Type} [DecidableEq α] {k : α} {v : β} :
    ∀ {l : List (α × β)}, assocLookup k l = some v → (k, v) ∈ l := by
  intro l h
  induction l with
  | nil => simp [assocLookup] at h
  | cons p rest ih =>
    obtain ⟨a, b⟩ := p
    by_cases hk : k = a
    · subst hk
      simp [assocLookup] at h
      subst h
      exact List.mem_cons_self _ _
    · simp [assocLookup, hk] at h
      exact List.mem_cons_of_mem _ (ih h)

theorem mem_of_mem_dropWhile {p : Char → Bool} {c : Char} :
    ∀ {l : List Char}, c ∈ l.dropWhile p → c ∈ l := by
  intro l h
  induction l with
  | nil => simp at h
  | cons x xs ih =>
    cases hx : p x
    · simpa [List.dropWhile, hx] using h
    · simp [List.dropWhile, hx] at h
      exact List.mem_cons_of_mem _ (ih h)

theorem takeWhile_all {p : Char → Bool} :
    ∀ {l : List Char}, (∀ c ∈ l, p c = true) → l.takeWhile p = l := by
  intro l h
  induction l with
  | nil => rfl
  | cons x xs ih =>
    have hx : p x = true := h x (List.mem_cons_self _ _)
    rw [List.takeWhile_cons, if_pos hx,
      ih (fun c hc => h c (List.mem_cons_of_mem _ hc))]

theorem map_self {f : Char → Char} :
    ∀ {l : List Char}, (∀ c ∈ l, f c = c) → l.map f = l := by
  intro l h
  induction l with
  | nil => rfl
  | cons x xs ih =>
    simp [h x (List.mem_cons_self _ _),
      ih (fun c hc => h c (List.mem_cons_of_mem _ hc))]

theorem filter_all {p : Char → Bool} :
    ∀ {l : List Char}, (∀ c ∈ l, p c = true) → l.filter p = l := by
  intro l h
  induction l with
  | nil => rfl
  | cons x xs ih =>
    simp [List.filter, h x (List.mem_cons_self _ _),
      ih (fun c hc => h c (List.mem_cons_of_mem _ hc))]

theorem splitWsAux_nows :
    ∀ (cs acc : List Char), (∀ c ∈ cs, wsChar c = false) →
      splitWsAux cs acc = [acc.reverse ++ cs] := by
  intro cs
  induction cs with
  | nil => intro acc _; simp [splitWsAux]
  | cons x xs ih =>
    intro acc h
    have hx : wsChar x = false := h x (List.mem_cons_self _ _)
    rw [splitWsAux, if_neg (by simp [hx])]
    rw [ih (x :: acc) (fun c hc => h c (List.mem_cons_of_mem _ hc))]
    simp

theorem splitWsAux_mem_chars {c : Char} :
    ∀ (cs acc : List Char) (t : List Char), t ∈ splitWsAux cs acc →
      c ∈ t → c ∈ cs ∨ c ∈ acc := by
  intro cs
  induction cs with
  | nil =>
    intro acc t ht hc
    simp [splitWsAux] at ht
    subst ht
    right
    simpa using hc
  | cons x xs ih =>
    intro acc t ht hc
    by_cases hx : wsChar x = true
    · rw [splitWsAux, if_pos hx] at ht
      rcases List.mem_cons.mp ht with h1 | h1
      · subst h1
        right
        simpa using hc
      · rcases ih [] t h1 hc with h2 | h2
        · exact Or.inl (List.mem_cons_of_mem _ h2)
        · simp at h2
    · rw [splitWsAux, if_neg hx] at ht
      rcases ih (x :: acc) t ht hc with h2 | h2
      · exact Or.inl (List.mem_cons_of_mem _ h2)
      · rcases List.mem_cons.mp h2 with h3 | h3
        · exact Or.inl (h3 ▸ List.mem_cons_self _ _)
        · exact Or.inr h3

theorem persistAll_owner {userId : String} {r : TransactionRecord} :
    ∀ {newId : Nat} {txs : List ExtractedTx},
      r ∈ persistAll userId newId txs → r.owner = userId := by
  intro newId txs h
  induction txs generalizing newId with
  | nil => simp [persistAll] at h
  | cons tx rest ih =>
    rcases List.mem_cons.mp h with h1 | h1
    · subst h1; rfl
    · exact ih h1

theorem findOneAndDelete_none {p : TransactionRecord → Bool} :
    ∀ {store : List TransactionRecord}, (∀ r ∈ store, p r = false) →
      findOneAndDelete store p = (none, store) := by
  intro store h
  induction store with
  | nil => rfl
  | cons r rest ih =>
    have hr : p r = false := h r (List.mem_cons_self _ _)
    rw [findOneAndDelete, if_neg (by simp [hr])]
    rw [ih (fun x hx => h x (List.mem_cons_of_mem _ hx))]

theorem findOneAndDelete_removed {p : TransactionRecord → Bool}
    {r : TransactionRecord} :
    ∀ {store : List TransactionRecord}, r ∈ store →
      r ∉ (findOneAndDelete store p).2 → p r = true := by
  intro store hmem hout
  induction store with
  | nil => simp at hmem
  | cons x rest ih =>
    by_cases hx : p x = true
    · rw [findOneAndDelete, if_pos hx] at hout
      rcases List.mem_cons.mp hmem with h1 | h1
      · subst h1; exact hx
      · exact absurd h1 hout
    · rw [findOneAndDelete, if_neg hx] at hout
      rcases List.mem_cons.mp hmem with h1 | h1
      · subst h1
        simp at hout
      · exact ih h1 (fun hin => hout (by simp [hin]))

theorem digit_not_ws {c : Char} (h : digitChar c = true) : wsChar c = false := by
  simp [digitChar] at h
  have h1 : c ≠ ' ' := by rintro rfl; exact absurd h (by decide)
  have h2 : c ≠ '\t' := by rintro rfl; exact absurd h (by decide)
  have h3 : c ≠ '\n' := by rintro rfl; exact absurd h (by decide)
  have h4 : c ≠ '\r' := by rintro rfl; exact absurd h (by decide)
  simp [wsChar, h1, h2, h3, h4]

theorem digit_ne {c : Char} (h : digitChar c = true) :
    c ≠ ',' ∧ c ≠ '-' ∧ c ≠ '+' := by
  simp [digitChar] at h
  have h1 : c ≠ ',' := by rintro rfl; exact absurd h (by decide)
  have h2 : c ≠ '-' := by rintro rfl; exact absurd h (by decide)
  have h3 : c ≠ '+' := by rintro rfl; exact absurd h (by decide)
  exact ⟨h1, h2, h3⟩

theorem digit_toLower {c : Char} (h : digitChar c = true) : jsToLower c = c := by
  simp [digitChar] at h
  unfold jsToLower
  cases hl : assocLookup c upperLowerPairs with
  | none => rfl
  | some l =>
    exfalso
    have hm := assocLookup_mem hl
    have hall : ∀ p ∈ upperLowerPairs, ¬('0' ≤ p.1 ∧ p.1 ≤ '9') := by decide
    exact hall (c, l) hm ⟨h.1, h.2⟩

theorem parseIntJS_nonneg {s : String} {n : Int}
    (hd : ∀ c ∈ s.data, c ≠ '-') (h : parseIntJS s = some n) : 0 ≤ n := by
  have aux : ∀ (l : List Char),
      (digitsPre l).map Int.ofNat = some n → 0 ≤ n := by
    intro l hl
    cases hdp : digitsPre l with
    | none => rw [hdp] at hl; simp at hl
    | some k =>
      rw [hdp] at hl
      simp at hl
      omega
  unfold parseIntJS at h
  cases hdw : s.data.dropWhile wsChar with
  | nil => rw [hdw] at h; simp [parseIntSigned] at h
  | cons c rest =>
    rw [hdw, parseIntSigned] at h
    have hcmem : c ∈ s.data :=
      mem_of_mem_dropWhile (hdw ▸ List.mem_cons_self c rest)
    have hc : c ≠ '-' := hd c hcmem
    rw [if_neg hc] at h
    by_cases hp : c = '+'
    · rw [if_pos hp] at h
      exact aux rest h
    · rw [if_neg hp] at h
      exact aux (c :: rest) h

theorem parseIntJS_digits {cs : List Char} (h1 : cs ≠ [])
    (h2 : ∀ c ∈ cs, digitChar c = true) :
    parseIntJS (String.mk cs) = some (Int.ofNat (digitsToNat cs)) := by
  cases cs with
  | nil => exact absurd rfl h1
  | cons c rest =>
    have hc : digitChar c = true := h2 c (List.mem_cons_self _ _)
    have hws : wsChar c = false := digit_not_ws hc
    have hne := digit_ne hc
    unfold parseIntJS
    have hdw : (String.mk (c :: rest)).data.dropWhile wsChar = c :: rest := by
      simp [List.dropWhile_cons, hws]
    rw [hdw, parseIntSigned]
    rw [if_neg hne.2.1, if_neg hne.2.2]
    unfold digitsPre
    rw [takeWhile_all h2]
    simp

theorem stripCommas_digits {cs : List Char}
    (h2 : ∀ c ∈ cs, digitChar c = true) :
    stripCommas (String.mk cs) = String.mk cs := by
  unfold stripCommas
  congr 1
  apply filter_all
  intro c hc
  simpa using (digit_ne (h2 c hc)).1

theorem jsToLowerStr_digits {cs : List Char}
    (h2 : ∀ c ∈ cs, digitChar c = true) :
    jsToLowerStr (String.mk cs) = String.mk cs := by
  unfold jsToLowerStr
  congr 1
  exact map_self (fun c hc => digit_toLower (h2 c hc))

theorem splitWs_digits {cs : List Char}
    (h2 : ∀ c ∈ cs, digitChar c = true) :
    splitWs (String.mk cs) = [String.mk cs] := by
  unfold splitWs
  rw [splitWsAux_nows cs [] (fun c hc => digit_not_ws (h2 c hc))]
  simp

/-! ## Claims -/

/-- C1: every record present in the store after `handleTransactionLogging`
either was already there or has the authenticated caller `userId` as its
owner, and every record of a successful `transaction_logged` response is
owned by the caller — even when the extracted objects carry their own
`owner` field, extracted content never determines ownership. -/
theorem claim_C1_owner_from_caller
    (tts : String → Option String) (llmReply : LlmOutcome)
    (userId : String) (language : Lang)
    (store : List TransactionRecord) (nextId : Nat)
    (r : TransactionRecord)
    (hr : r ∈ (handleTransactionLogging tts llmReply userId language store
      nextId).2) :
    (r ∈ store ∨ r.owner = userId) ∧
    ∀ s, (handleTransactionLogging tts llmReply userId language store
        nextId).1 = Except.ok s → ∀ t ∈ s.transactions, t.owner = userId := by
  constructor
  · by_cases hlen : (parseIntelligentV4 llmReply).length = 0
    · simp only [handleTransactionLogging, if_pos hlen] at hr
      exact Or.inl hr
    · simp only [handleTransactionLogging, if_neg hlen] at hr
      rcases List.mem_append.mp hr with h1 | h1
      · exact Or.inl h1
      · exact Or.inr (persistAll_owner h1)
  · intro s hs t ht
    by_cases hlen : (parseIntelligentV4 llmReply).length = 0
    · simp only [handleTransactionLogging, if_pos hlen] at hs
      exact absurd hs (by simp)
    · simp only [handleTransactionLogging, if_neg hlen] at hs
      rw [Except.ok.injEq] at hs
      subst hs
      exact persistAll_owner ht

/-- C1 witness: a concrete run in which the extracted object claims owner
"mallory" while the caller is "alice"; the persisted record is owned by
"alice". -/
theorem claim_C1_owner_from_caller_witness :
    ((⟨0, "Ada", "Oja", 2000, TxType.income, "alice"⟩ : TransactionRecord) ∈
        ([] : List TransactionRecord) ∨
      (⟨0, "Ada", "Oja", 2000, TxType.income,
        "alice"⟩ : TransactionRecord).owner = "alice") ∧
    ∀ s, (handleTransactionLogging (fun _ => none)
        (LlmOutcome.arrayResponse
          [⟨"Ada", "Oja", 2000, TxType.income, some "mallory"⟩])
        "alice" Lang.en [] 0).1 = Except.ok s →
      ∀ t ∈ s.transactions, t.owner = "alice" :=
  claim_C1_owner_from_caller (fun _ => none)
    (LlmOutcome.arrayResponse
      [⟨"Ada", "Oja", 2000, TxType.income, some "mallory"⟩])
    "alice" Lang.en [] 0
    ⟨0, "Ada", "Oja", 2000, TxType.income, "alice"⟩ (by decide)

/-- C2: for owners A ≠ B and a record owned by B (the only record with its
id), `deleteSingleTransaction` called by A with that record's id raises
`NotFoundException` and leaves the store unchanged; moreover, in any
store, a record removed by `deleteSingleTransaction` must match both the
requested id and the caller's owner id (the delete filter conjoins
both). -/
theorem claim_C2_delete_scoped
    (A B : String) (rec : TransactionRecord)
    (store : List TransactionRecord)
    (hAB : A ≠ B) (hown : rec.owner = B) (hmem : rec ∈ store)
    (huniq : ∀ r ∈ store, r.id = rec.id → r = rec) :
    (deleteSingleTransaction store rec.id A).1 =
      Except.error ⟨notFoundMessage rec.id⟩ ∧
    (deleteSingleTransaction store rec.id A).2 = store ∧
    (∀ (store2 : List TransactionRecord) (tid : Nat) (uid : String)
        (r : TransactionRecord), r ∈ store2 →
      r ∉ (deleteSingleTransaction store2 tid uid).2 →
      r.id = tid ∧ r.owner = uid) := by
  have hpred : ∀ r ∈ store,
      (fun r : TransactionRecord => r.id = rec.id && r.owner = A) r
        = false := by
    intro r hr
    by_cases hid : r.id = rec.id
    · have hre := huniq r hr hid
      subst hre
      have hOA : ¬(r.owner = A) := by
        rw [hown]
        exact fun hba => hAB hba.symm
      simp [hOA]
    · simp [hid]
  have hq := findOneAndDelete_none hpred
  refine ⟨?_, ?_, ?_⟩
  · simp only [deleteSingleTransaction, hq]
  · simp only [deleteSingleTransaction, hq]
  · intro store2 tid uid r hr hout
    have hout2 : r ∉ (findOneAndDelete store2
        (fun r : TransactionRecord => r.id = tid && r.owner = uid)).2 := by
      intro hin
      apply hout
      simp only [deleteSingleTransaction]
      cases hq1 : (findOneAndDelete store2
          (fun r : TransactionRecord => r.id = tid && r.owner = uid)).1 <;>
        simpa [hq1] using hin
    have := findOneAndDelete_removed hr hout2
    simpa using this

/-- C2 witness: "alice" attempts to delete "bob"'s record. -/
theorem claim_C2_delete_scoped_witness :
    (deleteSingleTransaction [⟨1, "Ada", "Oja", 5, TxType.debt, "bob"⟩] 1
        "alice").1 =
      Except.error ⟨notFoundMessage 1⟩ ∧
    (deleteSingleTransaction [⟨1, "Ada", "Oja", 5, TxType.debt, "bob"⟩] 1
        "alice").2 = [⟨1, "Ada", "Oja", 5, TxType.debt, "bob"⟩] ∧
    (∀ (store2 : List TransactionRecord) (tid : Nat) (uid : String)
        (r : TransactionRecord), r ∈ store2 →
      r ∉ (deleteSingleTransaction store2 tid uid).2 →
      r.id = tid ∧ r.owner = uid) :=
  claim_C2_delete_scoped "alice" "bob" ⟨1, "Ada", "Oja", 5, TxType.debt, "bob"⟩
    [⟨1, "Ada", "Oja", 5, TxType.debt, "bob"⟩]
    (by decide) rfl (by decide) (by decide)

/-- C3 counterexample: the canonical extractor `parseIntelligentV4`
performs no amount validation — an array response whose entry has amount
-5 is returned verbatim, so the extractor's output can contain a
transaction with amount ≤ 0. -/
theorem claim_C3_extractor_cex :
    (⟨"Ada", "Oja", -5, TxType.debt, none⟩ : ExtractedTx) ∈
      parseIntelligentV4 (LlmOutcome.arrayResponse
        [⟨"Ada", "Oja", -5, TxType.debt, none⟩]) ∧
    (⟨"Ada", "Oja", -5, TxType.debt, none⟩ : ExtractedTx).amount ≤ 0 := by
  decide

/-- C3 amended: the deterministic extractor `parseIntelligent` only ever
returns transactions with amount > 0 and yields `[]` (never an error)
when nothing qualifies, while the LLM-based `parseIntelligentV4` returns
`[]` on a backend error or a non-array reply but passes the entries of an
array reply through without amount filtering. -/
theorem claim_C3_extractor_amended :
    (∀ (customerMatch detailsMatch : Option String)
        (incomeMatches debtMatches : List String) (tx : ExtractedTx),
      tx ∈ parseIntelligent customerMatch detailsMatch incomeMatches
          debtMatches → 0 < tx.amount) ∧
    parseIntelligentV4 LlmOutcome.backendError = [] ∧
    parseIntelligentV4 LlmOutcome.nonArrayResponse = [] ∧
    (∀ txs, parseIntelligentV4 (LlmOutcome.arrayResponse txs) = txs) := by
  refine ⟨?_, rfl, rfl, fun _ => rfl⟩
  intro cm dm ims dms tx htx
  simp only [parseIntelligent] at htx
  rcases List.mem_append.mp htx with h1 | h1 <;>
  · obtain ⟨m, hm, hsome⟩ := List.mem_filterMap.mp h1
    split at hsome
    · next hpos =>
      rw [Option.some.injEq] at hsome
      subst hsome
      exact hpos
    · exact absurd hsome (by simp)

/-- C3 amended witness: a concrete income match of "2000" yields a
transaction with positive amount. -/
theorem claim_C3_extractor_amended_witness :
    0 < (⟨"Onibara", "Isanwo fun Oja", 2000, TxType.income,
      none⟩ : ExtractedTx).amount :=
  claim_C3_extractor_amended.1 none none ["2000"] []
    ⟨"Onibara", "Isanwo fun Oja", 2000, TxType.income, none⟩ (by decide)

/-- C4: when the extractor yields zero transactions, the
transaction-logging handler raises `BadRequestException` (a client-error
signal) carrying the localized error message and its synthesized audio,
and persists nothing: the store is unchanged. -/
theorem claim_C4_empty_extraction
    (tts : String → Option String) (llmReply : LlmOutcome)
    (userId : String) (language : Lang)
    (store : List TransactionRecord) (nextId : Nat)
    (h : parseIntelligentV4 llmReply = []) :
    (handleTransactionLogging tts llmReply userId language store nextId).1 =
      Except.error (PipelineError.badRequest
        (generateErrorMessage language.code)
        (tts (generateErrorMessage language.code))) ∧
    (handleTransactionLogging tts llmReply userId language store nextId).2 =
      store := by
  have hlen : (parseIntelligentV4 llmReply).length = 0 := by rw [h]; rfl
  constructor <;> simp [handleTransactionLogging, hlen]

/-- C4 witness: a failing backend reply extracts to zero transactions and
produces the Yoruba error text with its audio, leaving the store empty. -/
theorem claim_C4_empty_extraction_witness :
    (handleTransactionLogging (fun _ => none) LlmOutcome.backendError
      "alice" Lang.yo [] 0).1 =
      Except.error (PipelineError.badRequest
        (generateErrorMessage Lang.yo.code)
        ((fun _ => none) (generateErrorMessage Lang.yo.code))) ∧
    (handleTransactionLogging (fun _ => none) LlmOutcome.backendError
      "alice" Lang.yo [] 0).2 = [] :=
  claim_C4_empty_extraction (fun _ => none) LlmOutcome.backendError
    "alice" Lang.yo [] 0 rfl

/-- C5: the numeral normalizer `convertTextToNumber` does not map the
spoken two-thousand phrases to 2000: the raw Yoruba phrase (and the Igbo
and Hausa phrases, whose words are absent from the lexicon) yield 0, and
even the diacritic-stripped Yoruba phrase yields 1002, because the
multiplier rule sets the accumulator to 1000 and then adds 2. -/
theorem claim_C5_two_thousand_eval :
    convertTextToNumber "ẹgbẹ̀rún méjì" = 0 ∧
    normalizeTextForParsing "ẹgbẹ̀rún méjì" = "egberun meji" ∧
    convertTextToNumber "egberun meji" = 1002 ∧
    convertTextToNumber "puku abụọ" = 0 ∧
    convertTextToNumber "dubu biyu" = 0 := by
  decide

/-- C6: on a non-empty all-digit string, `convertTextToNumber` returns
exactly the integer the digits denote, which is also what `parseInt`
returns on that string. -/
theorem claim_C6_digit_literal (s : String) (h1 : s.data ≠ [])
    (h2 : ∀ c ∈ s.data, digitChar c = true) :
    parseIntJS s = some (Int.ofNat (digitsToNat s.data)) ∧
    convertTextToNumber s = Int.ofNat (digitsToNat s.data) := by
  obtain ⟨cs⟩ := s
  have h1' : cs ≠ [] := h1
  have h2' : ∀ c ∈ cs, digitChar c = true := h2
  have hp : parseIntJS (String.mk cs) = some (Int.ofNat (digitsToNat cs)) :=
    parseIntJS_digits h1' h2'
  refine ⟨hp, ?_⟩
  show convertTextToNumber (String.mk cs) = Int.ofNat (digitsToNat cs)
  simp only [convertTextToNumber]
  rw [jsToLowerStr_digits h2', stripCommas_digits h2', splitWs_digits h2']
  rw [List.foldl_cons, List.foldl_nil]
  have hstep : convertStep (0, 0) (String.mk cs)
      = (0, 0 + Int.ofNat (digitsToNat cs)) := by
    unfold convertStep
    rw [hp]
  rw [hstep]
  have hnn : 0 ≤ Int.ofNat (digitsToNat cs) := Int.ofNat_nonneg _
  by_cases hk : 0 < Int.ofNat (digitsToNat cs)
  · rw [if_pos (by simpa using hk)]
    omega
  · have hk0 : Int.ofNat (digitsToNat cs) = 0 := by omega
    rw [if_neg (by simpa using hk)]
    rw [hp]
    simp [hk0]

/-- C6 witness at the digit string "2000". -/
theorem claim_C6_digit_literal_witness :
    parseIntJS "2000" = some (Int.ofNat (digitsToNat "2000".data)) ∧
    convertTextToNumber "2000" = Int.ofNat (digitsToNat "2000".data) :=
  claim_C6_digit_literal "2000" (by decide) (by decide)

/-- C7 counterexample: `convertTextToNumber` is not always ≥ 0 — on the
input "-5" the word loop adds `parseInt("-5") = -5` and the fallback
`parseInt(text) || 0` also returns -5, so the result is negative. -/
theorem claim_C7_negative_cex :
    convertTextToNumber "-5" = -5 ∧ convertTextToNumber "-5" < 0 := by
  decide

/-- C7 amended: for every phrase containing no '-' character (the only
source of negative `parseInt` results), `convertTextToNumber` returns an
integer ≥ 0. -/
theorem claim_C7_nonneg (text : String)
    (h : ∀ c ∈ text.data, c ≠ '-') : 0 ≤ convertTextToNumber text := by
  have hfb : 0 ≤ (parseIntJS (stripCommas text)).getD 0 := by
    cases hfb2 : parseIntJS (stripCommas text) with
    | none => simp
    | some n =>
      simp only [Option.getD_some]
      refine parseIntJS_nonneg ?_ hfb2
      intro c hc
      exact h c (List.mem_of_mem_filter hc)
  simp only [convertTextToNumber]
  split
  · next hpos => exact le_of_lt hpos
  · exact hfb

/-- C7 amended witness at "egberun meji". -/
theorem claim_C7_nonneg_witness :
    0 ≤ convertTextToNumber "egberun meji" :=
  claim_C7_nonneg "egberun meji" (by decide)

/-- C8: the keyword classifier `determineIntent` coincides with the
spec-side first-match scan over the ordered keyword sets
(aggregate-income, aggregate-debt, debtor-list, transaction, else
unknown), and the three example transcripts classify as stated. -/
theorem claim_C8_lexical_classifier :
    (∀ text, determineIntent text = classifyLexicalSpec text) ∧
    determineIntent "show me my debtors" = Intent.query_debtors ∧
    determineIntent "Ada paid 2000" = Intent.log_transaction ∧
    determineIntent "how is the weather" = Intent.unknown :=
  ⟨fun _ => rfl, by decide, by decide, by decide⟩

/-- C9 counterexample: the no-debtors composer has no English fallback —
for the unrecognized code "fr" the `messages[lang]` lookup is `undefined`
(`none`), not the English template (which does exist under "en"). -/
theorem claim_C9_no_debtors_cex :
    generateNoDebtorsMessage "fr" = none ∧
    generateNoDebtorsMessage "en" = some "You have no outstanding debts." := by
  decide

/-- C9 amended: for a language code outside the supported set, the
`switch`-based composers (`generateErrorMessage`,
`generateConfirmationMessage`) fall back to their English template, but
the lookup-based `generateNoDebtorsMessage` produces no template at all
(JS `undefined`), not the English one. -/
theorem claim_C9_composer_fallback (lang : String)
    (hy : lang ≠ "yo") (hi : lang ≠ "ig") (hh : lang ≠ "ha")
    (he : lang ≠ "en")
    (customer details : String) (amount : Int) (ty : TxType) :
    generateErrorMessage lang = generateErrorMessage "en" ∧
    generateConfirmationMessage customer amount ty details lang =
      generateConfirmationMessage customer amount ty details "en" ∧
    generateNoDebtorsMessage lang = none := by
  refine ⟨?_, ?_, ?_⟩ <;>
    simp [generateErrorMessage, generateConfirmationMessage,
      generateNoDebtorsMessage, hy, hi, hh, he]

/-- C9 amended witness at the unrecognized code "fr". -/
theorem claim_C9_composer_fallback_witness :
    generateErrorMessage "fr" = generateErrorMessage "en" ∧
    generateConfirmationMessage "Ada" 5 TxType.income "Oja" "fr" =
      generateConfirmationMessage "Ada" 5 TxType.income "Oja" "en" ∧
    generateNoDebtorsMessage "fr" = none :=
  claim_C9_composer_fallback "fr" (by decide) (by decide) (by decide)
    (by decide) "Ada" "Oja" 5 TxType.income

/-- C10: when speech synthesis fails (the TTS oracle returns `none` for
every text, as `generateSpeech` does when the Spitch call throws) after a
non-empty extraction, `handleTransactionLogging` still returns the
successful `transaction_logged` result with `audioContent = none`, and
the persisted records remain appended to the store — no rollback and no
propagated exception. -/
theorem claim_C10_tts_failure
    (llmReply : LlmOutcome) (userId : String) (language : Lang)
    (store : List TransactionRecord) (nextId : Nat)
    (h : parseIntelligentV4 llmReply ≠ []) :
    (handleTransactionLogging (fun _ => none) llmReply userId language
        store nextId).1 =
      Except.ok ⟨"transaction_logged",
        persistAll userId nextId (parseIntelligentV4 llmReply), none,
        generateConfirmationMessageV2
          (persistAll userId nextId (parseIntelligentV4 llmReply))
          language⟩ ∧
    (handleTransactionLogging (fun _ => none) llmReply userId language
        store nextId).2 =
      store ++ persistAll userId nextId (parseIntelligentV4 llmReply) := by
  have hlen : ¬(parseIntelligentV4 llmReply).length = 0 := by
    simpa [List.length_eq_zero] using h
  constructor <;> simp [handleTransactionLogging, hlen]

/-- C10 witness: one extracted transaction, failing TTS. -/
theorem claim_C10_tts_failure_witness :
    (handleTransactionLogging (fun _ => none)
        (LlmOutcome.arrayResponse [⟨"Ada", "Oja", 5, TxType.income, none⟩])
        "alice" Lang.en [] 0).1 =
      Except.ok ⟨"transaction_logged",
        persistAll "alice" 0 (parseIntelligentV4 (LlmOutcome.arrayResponse
          [⟨"Ada", "Oja", 5, TxType.income, none⟩])), none,
        generateConfirmationMessageV2
          (persistAll "alice" 0 (parseIntelligentV4 (LlmOutcome.arrayResponse
            [⟨"Ada", "Oja", 5, TxType.income, none⟩]))) Lang.en⟩ ∧
    (handleTransactionLogging (fun _ => none)
        (LlmOutcome.arrayResponse [⟨"Ada", "Oja", 5, TxType.income, none⟩])
        "alice" Lang.en [] 0).2 =
      [] ++ persistAll "alice" 0 (parseIntelligentV4 (LlmOutcome.arrayResponse
        [⟨"Ada", "Oja", 5, TxType.income, none⟩])) :=
  claim_C10_tts_failure
    (LlmOutcome.arrayResponse [⟨"Ada", "Oja", 5, TxType.income, none⟩])
    "alice" Lang.en [] 0 (by decide)
